import Mathlib

/-!
Verification of the concurrent SQL execution core of the repository
(`datasette/app.py`): the metadata/config cascade resolver
(`Datasette.metadata`), the deadline-bounded executor and result assembler
(`Datasette.execute`), and the foreign-key label resolver
(`Datasette.expand_foreign_keys`).

The embedding is shallow: Python dicts become association lists with
the Python assignment/update semantics (`dinsert`, `dupdate`), the SQLite
driver becomes an explicit input describing the outcome of
`cursor.execute` (rows fetched or an operational error), and exceptions
become explicit sum-type results.
-/

section DictModel

variable {K : Type} {V : Type} [DecidableEq K]

/-- Lookup in an association list: first entry with the given key.
Models Python `d[k]` / `d.get(k)` (Python dicts have unique keys, so
first match is the unique match). -/
def dlookup : List (K × V) → K → Option V
  | [], _ => none
  | (k', v) :: rest, k => if k = k' then some v else dlookup rest k

/-- Python dict assignment `d[k] = v`: replace the value at the first
occurrence of `k`, or append a new entry if `k` is absent. -/
def dinsert : List (K × V) → K → V → List (K × V)
  | [], k, v => [(k, v)]
  | (k', v') :: rest, k, v =>
      if k = k' then (k', v) :: rest else (k', v') :: dinsert rest k v

/-- Python `m.update(item)`: assign every entry of `item` into `m` in
order. -/
def dupdate (m item : List (K × V)) : List (K × V) :=
  item.foldl (fun d kv => dinsert d kv.1 kv.2) m

/-- Keys of an association list. -/
def dkeys (d : List (K × V)) : List K := d.map Prod.fst

/-- First-`Option` choice, the shape of Python `if key in item: return
item[key]` chains. -/
def oor : Option V → Option V → Option V
  | some v, _ => some v
  | none, b => b

/-- Cascade over a list of scopes: the first scope that defines the key
wins.  Models the loop `for item in search_list: if key in item: return
item[key]` followed by `return None`. -/
def findKey : List (List (K × V)) → K → Option V
  | [], _ => none
  | item :: rest, k =>
      match dlookup item k with
      | some v => some v
      | none => findKey rest k

/-- `for item in search_list: m.update(item)` starting from `m = {}`. -/
def mergeScopes (scopes : List (List (K × V))) : List (K × V) :=
  scopes.foldl dupdate []

end DictModel

section MetadataModel

/-- A metadata JSON value: either a string leaf or a nested object.
(Other JSON leaf kinds are opaque to the cascade logic, so a single leaf
constructor suffices to model every lookup the code performs.) -/
inductive MetaVal where
  | s : String → MetaVal
  | d : List (String × MetaVal) → MetaVal

/-- A Python dict of metadata values. -/
abbrev Dict := List (String × MetaVal)

/-- Python `x or {}` followed by use as a dict, as in
`databases.get(database) or {}`: a missing key or a falsy value gives the
empty dict.  (A truthy non-dict value would raise `AttributeError` on the
subsequent `.get` in Python; well-formed metadata documents only store
objects at these keys, so that path is not modelled.) -/
def pyDictOr : Option MetaVal → Dict
  | some (.d es) => es
  | _ => []

/-- The fields of the `Datasette` instance the excerpted core reads. -/
structure Datasette where
  /-- `self.sql_time_limit_ms`, from config `sql_time_limit_ms`. -/
  sql_time_limit_ms : Nat
  /-- `self.max_returned_rows`, from config `max_returned_rows`. -/
  max_returned_rows : Nat
  /-- `self.page_size`, from config `default_page_size`. -/
  page_size : Nat
  /-- `self._metadata`, the top-level metadata document. -/
  meta : Dict

/-- `DEFAULT_CONFIG` values for the three options the core reads. -/
def defaultDatasette (meta : Dict) : Datasette :=
  ⟨1000, 1000, 100, meta⟩

/-- `self._metadata.get("databases") or {}`. -/
def databasesOf (meta : Dict) : Dict := pyDictOr (dlookup meta "databases")

/-- `databases.get(database) or {}`: the database-level scope. -/
def dbScope (meta : Dict) (database : String) : Dict :=
  pyDictOr (dlookup (databasesOf meta) database)

/-- `((databases.get(database) or {}).get("tables") or {}).get(table) or {}`:
the table-level scope. -/
def tableScope (meta : Dict) (database table : String) : Dict :=
  pyDictOr (dlookup (pyDictOr (dlookup (dbScope meta database) "tables")) table)

/-- The `search_list` built by `Datasette.metadata` before the fallback
cut: table scope first (when given), then database scope (when given),
then the whole top-level metadata document. -/
def buildSearchList (meta : Dict) (database table : Option String) : List Dict :=
  let l1 : List Dict :=
    match database with
    | some db => [dbScope meta db]
    | none => []
  let l2 : List Dict :=
    match table with
    | some t =>
        (match database with
         | some db => tableScope meta db t
         | none => []) :: l1
    | none => l1
  l2 ++ [meta]

/-- `search_list` after `if not fallback: search_list = search_list[:1]`. -/
def effectiveSearchList (meta : Dict) (database table : Option String)
    (fallback : Bool) : List Dict :=
  let l := buildSearchList meta database table
  if fallback then l else l.take 1

/-- Result of `Datasette.metadata`: a keyed lookup returns a value or
Python `None`; the merged view returns a dict. -/
inductive MetaResult where
  | val : Option MetaVal → MetaResult
  | merged : Dict → MetaResult

/-- `Datasette.metadata(key, database, table, fallback)`.  `none` models
the `assert` firing (table given without database); otherwise the keyed
cascade or the merged view is returned. -/
def Datasette.metadata (self : Datasette) (key : Option String)
    (database table : Option String) (fallback : Bool) : Option MetaResult :=
  if database.isNone ∧ table.isSome then
    none
  else
    let searchList := effectiveSearchList self.meta database table fallback
    some <|
      match key with
      | some k => .val (findKey searchList k)
      | none => .merged (mergeScopes searchList)

end MetadataModel

section ExecuteModel

variable {Row Params : Type}

/-- The tuple `(rows, truncated, description)` returned by
`Datasette.execute` as `Results(rows, truncated, cursor.description)`. -/
structure Results (Row : Type) where
  rows : List Row
  truncated : Bool
  description : List String
deriving DecidableEq

/-- What the driver call `cursor.execute(sql, params)` followed by the
fetch does: either rows become available on the cursor (with its column
description), or an `sqlite3.OperationalError` is raised whose `args`
tuple is given.  The deadline hook makes the abort path appear as an
operational error with `args == ("interrupted",)`. -/
inductive DriverOutcome (Row : Type) where
  | rows : List Row → List String → DriverOutcome Row
  | opError : List String → DriverOutcome Row
deriving DecidableEq

/-- Outcome of `Datasette.execute` as seen by the caller: a `Results`
value, a raised `QueryInterrupted(e, sql, params)`, or a re-raised
`sqlite3.OperationalError` with the given `args`. -/
inductive ExecResult (Row Params : Type) where
  | ok : Results Row → ExecResult Row Params
  | interrupted : String → Params → ExecResult Row Params
  | opError : List String → ExecResult Row Params
deriving DecidableEq

/-- Lines 497-499 of `app.py`:
`time_limit_ms = self.sql_time_limit_ms;
if custom_time_limit and custom_time_limit < time_limit_ms:
time_limit_ms = custom_time_limit`.
`custom_time_limit` is truthy exactly when it is a nonzero number. -/
def effectiveTimeLimit (sql_time_limit_ms : Nat) (custom_time_limit : Option Nat) :
    Nat :=
  match custom_time_limit with
  | some c => if c ≠ 0 ∧ c < sql_time_limit_ms then c else sql_time_limit_ms
  | none => sql_time_limit_ms

/-- Lines 505-507 of `app.py`: the effective row cap.
`max_returned_rows = self.max_returned_rows;
if max_returned_rows == page_size: max_returned_rows += 1`. -/
def effCap (max_returned_rows_config page_size : Nat) : Nat :=
  if max_returned_rows_config = page_size then max_returned_rows_config + 1
  else max_returned_rows_config

/-- Lines 505-514 of `app.py`: the row-cap / truncation logic applied to
the cursor.  `fetchmany(n)` returns at most `n` rows, i.e. `List.take n`;
`fetchall` returns everything.  Returns the rows kept and the
`truncated` flag. -/
def assembleRows (max_returned_rows_config page_size : Nat) (truncate : Bool)
    (available : List Row) : List Row × Bool :=
  let max_returned_rows := effCap max_returned_rows_config page_size
  if max_returned_rows ≠ 0 ∧ truncate then
    let rows := available.take (max_returned_rows + 1)
    let truncated := decide (max_returned_rows < rows.length)
    (rows.take max_returned_rows, truncated)
  else
    (available, false)

/-- `Datasette.execute(db_name, sql, params, truncate, custom_time_limit,
page_size, log_sql_errors)`.  The database itself is abstracted as
`driver`, a function from the effective time limit installed by
`sqlite_timelimit` to the outcome of the statement.  `log_sql_errors`
only controls a diagnostic `print` (pure I/O) and changes no result, so
it is accepted and ignored. -/
def Datasette.execute (self : Datasette) (sql : String) (params : Params)
    (truncate : Bool) (custom_time_limit : Option Nat) (page_size : Option Nat)
    (log_sql_errors : Bool) (driver : Nat → DriverOutcome Row) :
    ExecResult Row Params :=
  -- line 494: `page_size = page_size or self.page_size`
  let page_size :=
    match page_size with
    | some p => if p ≠ 0 then p else self.page_size
    | none => self.page_size
  let _ := log_sql_errors
  let time_limit_ms := effectiveTimeLimit self.sql_time_limit_ms custom_time_limit
  match driver time_limit_ms with
  | .opError args =>
      -- lines 515-524: translate the abort sentinel, re-raise the rest
      if args = ["interrupted"] then .interrupted sql params
      else .opError args
  | .rows available desc =>
      let (rows, truncated) := assembleRows self.max_returned_rows page_size
        truncate available
      -- lines 526-530
      if truncate then .ok ⟨rows, truncated, desc⟩
      else .ok ⟨rows, false, desc⟩

end ExecuteModel

section ExpandModel

/-- One entry of `db.foreign_keys_for_table(table)`: a dict with keys
`column`, `other_table`, `other_column`. -/
structure ForeignKey where
  column : String
  other_table : String
  other_column : String
deriving DecidableEq

/-- Outcome of the single batched query
`await self.execute(database, sql, list(set(values)))` inside
`expand_foreign_keys`: result rows `(id, label)`, a raised
`QueryInterrupted`, or any other raised error (carried as its `args`). -/
inductive BatchOutcome where
  | ok : List (Nat × String) → BatchOutcome
  | interrupted : BatchOutcome
  | err : List String → BatchOutcome
deriving DecidableEq

/-- The mapping `(column, value) -> label` that `expand_foreign_keys`
builds. -/
abbrev LabelMap := List ((String × Nat) × String)

/-- `Datasette.expand_foreign_keys(database, table, column, values)`.
Foreign-key values are modelled as `Nat` (they are opaque to the logic
except for `str(value)`, modelled by `toString`).  The two database
helpers `foreign_keys_for_table` and `label_column_for_table` live in
the out-of-scope database module and are passed in as inputs, as is the
outcome of the one batched query.  `.error args` models an exception
propagating to the caller. -/
def Datasette.expand_foreign_keys (foreign_keys : List ForeignKey)
    (label_column_for_table : String → Option String) (column : String)
    (values : List Nat) (batch : BatchOutcome) :
    Except (List String) LabelMap :=
  -- `fk = [fk for fk in foreign_keys if fk["column"] == column][0]`
  -- with `IndexError` caught and mapped to `return {}`
  match foreign_keys.filter (fun f => f.column = column) with
  | [] => .ok []
  | fk :: _ =>
    match label_column_for_table fk.other_table with
    | none =>
        -- `{(fk["column"], value): str(value) for value in values}`
        .ok (values.foldl
          (fun d v => dinsert d (fk.column, v) (toString v)) [])
    | some _ =>
        match batch with
        | .interrupted => .ok []      -- `except QueryInterrupted: pass`
        | .err args => .error args    -- any other error propagates
        | .ok results =>
            -- `for id, value in results:
            --    labeled_fks[(fk["column"], id)] = value`
            .ok (results.foldl
              (fun d r => dinsert d (fk.column, r.1) r.2) [])

end ExpandModel

section DictLemmas

variable {K : Type} {V : Type} [DecidableEq K]

theorem dlookup_eq_none_of_not_mem :
    ∀ (d : List (K × V)) (k : K), k ∉ dkeys d → dlookup d k = none
  | [], _, _ => rfl
  | (k', v) :: rest, k, h => by
      have h1 : k ≠ k' := fun e => h (by simp [dkeys, e])
      have h2 : k ∉ dkeys rest := fun m => h (by simp [dkeys] at m ⊢; exact Or.inr m)
      simp [dlookup, h1, dlookup_eq_none_of_not_mem rest k h2]

theorem dlookup_dinsert :
    ∀ (d : List (K × V)) (k k' : K) (v : V),
      dlookup (dinsert d k v) k' = if k' = k then some v else dlookup d k'
  | [], k, k', v => by simp [dinsert, dlookup]
  | (a1, a2) :: rest, k, k', v => by
      simp only [dinsert]
      by_cases hk : k = a1
      · subst hk
        by_cases hk' : k' = k <;> simp [dlookup, hk']
      · rw [if_neg hk]
        by_cases hk' : k' = a1
        · subst hk'
          have hne : ¬ k' = k := fun e => hk e.symm
          simp [dlookup, hne]
        · simp [dlookup, hk', dlookup_dinsert rest k k' v]

theorem dlookup_dupdate :
    ∀ (item m : List (K × V)) (k : K), (dkeys item).Nodup →
      dlookup (dupdate m item) k = oor (dlookup item k) (dlookup m k)
  | [], m, k, _ => by simp [dupdate, dlookup, oor]
  | (a1, a2) :: rest, m, k, h => by
      have hcons : a1 ∉ dkeys rest ∧ (dkeys rest).Nodup := by
        have e : dkeys ((a1, a2) :: rest) = a1 :: dkeys rest := rfl
        rw [e] at h; exact List.nodup_cons.mp h
      have hna : a1 ∉ dkeys rest := hcons.1
      have hnd : (dkeys rest).Nodup := hcons.2
      have step : dupdate m ((a1, a2) :: rest) = dupdate (dinsert m a1 a2) rest := rfl
      rw [step, dlookup_dupdate rest (dinsert m a1 a2) k hnd]
      by_cases hk : k = a1
      · subst hk
        rw [dlookup_eq_none_of_not_mem rest k hna, dlookup_dinsert]
        simp [dlookup, oor]
      · rw [dlookup_dinsert, if_neg hk]
        simp only [dlookup, if_neg hk]

theorem findKey_cons (x : List (K × V)) (L : List (List (K × V))) (k : K) :
    findKey (x :: L) k = oor (dlookup x k) (findKey L k) := by
  cases h : dlookup x k <;> simp [findKey, h, oor]

theorem findKey_append :
    ∀ (A B : List (List (K × V))) (k : K),
      findKey (A ++ B) k = oor (findKey A k) (findKey B k)
  | [], B, k => by simp [findKey, oor]
  | x :: rest, B, k => by
      rw [List.cons_append, findKey_cons, findKey_cons, findKey_append rest B k]
      cases dlookup x k <;> simp [oor]

theorem dlookup_foldl_dupdate :
    ∀ (L : List (List (K × V))) (m : List (K × V)) (k : K),
      (∀ d ∈ L, (dkeys d).Nodup) →
      dlookup (L.foldl dupdate m) k = oor (findKey L.reverse k) (dlookup m k)
  | [], m, k, _ => by simp [findKey, oor]
  | x :: rest, m, k, h => by
      have hx : (dkeys x).Nodup := h x (by simp)
      have hr : ∀ d ∈ rest, (dkeys d).Nodup := fun d hd => h d (by simp [hd])
      have step : (x :: rest).foldl dupdate m = rest.foldl dupdate (dupdate m x) := rfl
      rw [step, dlookup_foldl_dupdate rest (dupdate m x) k hr,
        dlookup_dupdate x m k hx, List.reverse_cons, findKey_append, findKey_cons]
      cases findKey rest.reverse k <;> cases dlookup x k <;> simp [findKey, oor]

/-- On scopes whose dicts have unique keys (always true of Python dicts),
the merged view agrees with the cascade run over the scopes in REVERSE
order: the last scope updated into the accumulator wins ties. -/
theorem dlookup_mergeScopes (L : List (List (K × V))) (k : K)
    (h : ∀ d ∈ L, (dkeys d).Nodup) :
    dlookup (mergeScopes L) k = findKey L.reverse k := by
  rw [mergeScopes, dlookup_foldl_dupdate L [] k h]
  cases findKey L.reverse k <;> simp [oor, dlookup]

/-- Folding the identity-label comprehension over `values`: the label map
sends `(c, w)` to `str(w)` exactly when `w` appeared in `values`. -/
theorem dlookup_foldl_identity :
    ∀ (vs : List Nat) (acc : LabelMap) (c : String) (w : Nat),
      dlookup (vs.foldl (fun d v => dinsert d (c, v) (toString v)) acc) (c, w)
        = if w ∈ vs then some (toString w) else dlookup acc (c, w)
  | [], acc, c, w => by simp
  | v :: rest, acc, c, w => by
      have step : (v :: rest).foldl (fun d v => dinsert d (c, v) (toString v)) acc
          = rest.foldl (fun d v => dinsert d (c, v) (toString v))
              (dinsert acc (c, v) (toString v)) := rfl
      rw [step, dlookup_foldl_identity rest _ c w, dlookup_dinsert]
      by_cases hw : w ∈ rest
      · simp [hw]
      · by_cases hv : w = v
        · subst hv; simp [hw]
        · simp [hw, hv, Prod.ext_iff]

end DictLemmas

theorem oor_none {V : Type} (a : Option V) : oor a none = a := by
  cases a <;> rfl

theorem findKey_nil {K V : Type} [DecidableEq K] (k : K) :
    findKey ([] : List (List (K × V))) k = none := rfl

/-- A concrete metadata document: `title` defined at global scope, and at
database scope for `db1`, and at table scope for `db1/t1`. -/
def exampleMeta : Dict :=
  [("title", .s "Global"),
   ("databases", .d
     [("db1", .d
       [("title", .s "DB"),
        ("tables", .d [("t1", .d [("title", .s "Table")])])])])]

/-- C9: a cascade lookup called with a table scope but no database scope
fails fast (the `assert` at the top of `Datasette.metadata` fires) for
every key, every metadata document and every fallback flag. -/
theorem metadata_table_without_database_fails (self : Datasette)
    (key : Option String) (t : String) (fallback : Bool) :
    self.metadata key none (some t) fallback = none := rfl

/-- C4: keyed cascade lookups consult table scope (when given), then
database scope (when given), then the global document, first scope
defining the key winning, when `fallback = true`; with `fallback = false`
only the innermost given scope is consulted, so the result is exactly
the entry of that scope for the key (`none` when absent there) regardless of
outer scopes. -/
theorem metadata_keyed_cascade_order (self : Datasette) (k db t : String) :
    (self.metadata (some k) (some db) (some t) true
      = some (.val (oor (dlookup (tableScope self.meta db t) k)
          (oor (dlookup (dbScope self.meta db) k) (dlookup self.meta k)))))
    ∧ (self.metadata (some k) (some db) none true
      = some (.val (oor (dlookup (dbScope self.meta db) k)
          (dlookup self.meta k))))
    ∧ (self.metadata (some k) none none true
      = some (.val (dlookup self.meta k)))
    ∧ (self.metadata (some k) (some db) (some t) false
      = some (.val (dlookup (tableScope self.meta db t) k)))
    ∧ (self.metadata (some k) (some db) none false
      = some (.val (dlookup (dbScope self.meta db) k)))
    ∧ (self.metadata (some k) none none false
      = some (.val (dlookup self.meta k))) := by
  refine ⟨?_, ?_, ?_, ?_, ?_, ?_⟩ <;>
    simp only [Datasette.metadata, effectiveSearchList, buildSearchList,
      List.cons_append, List.nil_append, List.take, if_true, if_neg,
      findKey_cons, findKey_nil, oor_none, Option.isNone_some,
      Option.isSome_some, Option.isNone_none, Option.isSome_none,
      Bool.false_eq_true, false_and, and_false, if_false, ite_true,
      ite_false, reduceCtorEq]

/-- C2 counterexample: with `title` defined at database scope (`"DB"`)
and at global scope (`"Global"`), the merged (no-key) view for database
`db1` yields the GLOBAL value: `m.update(item)` runs over the search
list inner-to-outer, so the outermost scope overrides, contradicting the
claim that inner scopes override outer ones. -/
theorem metadata_merged_inner_override_counterexample :
    Datasette.metadata (defaultDatasette exampleMeta) none (some "db1") none true
      = some (.merged (mergeScopes (effectiveSearchList exampleMeta (some "db1") none true)))
    ∧ dlookup (mergeScopes (effectiveSearchList exampleMeta (some "db1") none true)) "title"
      = some (.s "Global")
    ∧ dlookup (dbScope exampleMeta "db1") "title" = some (.s "DB")
    ∧ MetaVal.s "Global" ≠ MetaVal.s "DB" := by
  refine ⟨rfl, rfl, rfl, ?_⟩
  intro h
  injection h with h'
  exact absurd h' (by decide)

/-- C2 (amended): for every merged-view lookup (no key), when the
database/table arguments are valid and every scope dict has unique keys
(always true of Python dicts), the merged result is the union of the
applicable scopes folded so that OUTER scopes override inner ones on
identical key names: looking up any key in the merged dict equals the
cascade over the search list in reverse (global first). -/
theorem metadata_merged_outer_overrides (self : Datasette)
    (database table : Option String) (fallback : Bool)
    (hvalid : ¬(database.isNone ∧ table.isSome))
    (hnodup : ∀ d ∈ effectiveSearchList self.meta database table fallback,
      (dkeys d).Nodup)
    (k : String) :
    self.metadata none database table fallback
      = some (.merged (mergeScopes (effectiveSearchList self.meta database table fallback)))
    ∧ dlookup (mergeScopes (effectiveSearchList self.meta database table fallback)) k
      = findKey (effectiveSearchList self.meta database table fallback).reverse k := by
  constructor
  · rw [Datasette.metadata, if_neg hvalid]
  · exact dlookup_mergeScopes _ k hnodup

theorem metadata_merged_outer_overrides_witness :
    Datasette.metadata (defaultDatasette exampleMeta) none (some "db1") none true
      = some (.merged (mergeScopes (effectiveSearchList exampleMeta (some "db1") none true)))
    ∧ dlookup (mergeScopes (effectiveSearchList exampleMeta (some "db1") none true)) "title"
      = findKey (effectiveSearchList exampleMeta (some "db1") none true).reverse "title" :=
  metadata_merged_outer_overrides (defaultDatasette exampleMeta) (some "db1") none true
    (by simp) (by decide) "title"

/-- A driver whose outcome does not depend on the installed time limit. -/
def constDriver {Row : Type} (o : DriverOutcome Row) : Nat → DriverOutcome Row :=
  fun _ => o

/-- C5: the effective statement time limit is `min(requested, default)`
when the request specifies its own (truthy) limit, and the process-wide
default otherwise; in particular the limit pairs (500, 1000) give 500
and (2000, 1000) give 1000. -/
theorem effective_time_limit_is_min (d : Nat) :
    (∀ c : Nat, 0 < c → effectiveTimeLimit d (some c) = min c d)
    ∧ effectiveTimeLimit d none = d
    ∧ effectiveTimeLimit 1000 (some 500) = 500
    ∧ effectiveTimeLimit 1000 (some 2000) = 1000 := by
  refine ⟨fun c hc => ?_, rfl, by decide, by decide⟩
  simp only [effectiveTimeLimit]
  split_ifs with h <;> omega

theorem effective_time_limit_is_min_witness :
    0 < 7 ∧ effectiveTimeLimit 1000 (some 7) = min 7 1000 :=
  ⟨by decide, (effective_time_limit_is_min 1000).1 7 (by decide)⟩

/-- C10: a custom time limit of 0 or None leaves the process-wide
default in effect (no immediate timeout), a custom limit exactly equal
to the default also leaves the default in effect, and the min rule
applies only to positive custom limits. -/
theorem effective_time_limit_zero_none_default (d : Nat) :
    effectiveTimeLimit d (some 0) = d
    ∧ effectiveTimeLimit d none = d
    ∧ effectiveTimeLimit d (some d) = d
    ∧ (∀ c : Nat, 0 < c → effectiveTimeLimit d (some c) = min c d) := by
  refine ⟨?_, rfl, ?_, fun c hc => ?_⟩ <;>
    · simp only [effectiveTimeLimit]
      split_ifs <;> omega

theorem effective_time_limit_zero_none_default_witness :
    0 < 5 ∧ effectiveTimeLimit 800 (some 5) = min 5 800 :=
  ⟨by decide, (effective_time_limit_zero_none_default 800).2.2.2 5 (by decide)⟩

/-- C6: an operational error raised during statement execution is
translated into `QueryInterrupted` carrying the original SQL and
parameters exactly when its args tuple is the fixed driver abort sentinel
`("interrupted",)`; every other operational error is re-raised
unchanged. -/
theorem execute_operational_error_translation {Row Params : Type}
    (self : Datasette) (sql : String) (params : Params) (truncate : Bool)
    (custom : Option Nat) (ps : Option Nat) (log : Bool) (args : List String) :
    (Datasette.execute self sql params truncate custom ps log
        (constDriver (DriverOutcome.opError args : DriverOutcome Row))
      = ExecResult.interrupted sql params ↔ args = ["interrupted"])
    ∧ (args ≠ ["interrupted"] →
      Datasette.execute self sql params truncate custom ps log
        (constDriver (DriverOutcome.opError args : DriverOutcome Row))
      = ExecResult.opError args) := by
  constructor
  · by_cases h : args = ["interrupted"] <;>
      simp [Datasette.execute, constDriver, h]
  · intro h
    simp [Datasette.execute, constDriver, h]

theorem execute_operational_error_translation_witness :
    Datasette.execute (defaultDatasette []) "select 1" () false none none true
      (constDriver (DriverOutcome.opError ["no such table: t"] : DriverOutcome Nat))
      = ExecResult.opError ["no such table: t"]
    ∧ Datasette.execute (defaultDatasette []) "select 1" () false none none true
      (constDriver (DriverOutcome.opError ["interrupted"] : DriverOutcome Nat))
      = ExecResult.interrupted "select 1" () :=
  ⟨(execute_operational_error_translation (defaultDatasette []) "select 1" ()
      false none none true ["no such table: t"]).2 (by decide),
   (execute_operational_error_translation (defaultDatasette []) "select 1" ()
      false none none true ["interrupted"]).1.mpr rfl⟩

/-- C3: with truncate enabled and a nonzero row cap configured, the
effective cap is `max_rows + 1` when `max_rows = page_size` and
`max_rows` otherwise (`effCap`); at most `cap + 1` rows are fetched;
`truncated` holds exactly when the fetched count exceeds the cap; and
exactly the first `cap` rows are returned.  With truncate disabled all
rows are returned and `truncated` is false. -/
theorem execute_truncation_policy {Row Params : Type}
    (self : Datasette) (sql : String) (params : Params) (custom : Option Nat)
    (log : Bool) (page_size : Nat) (available : List Row) (desc : List String)
    (hps : page_size ≠ 0) (hcap : self.max_returned_rows ≠ 0) :
    (Datasette.execute self sql params true custom (some page_size) log
        (constDriver (DriverOutcome.rows available desc))
      = ExecResult.ok
          ⟨available.take (effCap self.max_returned_rows page_size),
           decide (effCap self.max_returned_rows page_size
             < (available.take (effCap self.max_returned_rows page_size + 1)).length),
           desc⟩)
    ∧ (available.take (effCap self.max_returned_rows page_size + 1)).length
        ≤ effCap self.max_returned_rows page_size + 1
    ∧ Datasette.execute self sql params false custom (some page_size) log
        (constDriver (DriverOutcome.rows available desc))
      = ExecResult.ok ⟨available, false, desc⟩ := by
  have hc : effCap self.max_returned_rows page_size ≠ 0 := by
    simp only [effCap]; split_ifs <;> omega
  refine ⟨?_, ?_, ?_⟩
  · simp only [Datasette.execute, constDriver, assembleRows, hps, hc, and_true,
      if_true, ite_true, if_pos, ne_eq, not_false_iff]
    rw [List.take_take, min_eq_left (Nat.le_succ _)]
  · exact List.length_take_le _ _
  · simp [Datasette.execute, constDriver, assembleRows]

theorem execute_truncation_policy_witness :
    Datasette.execute (⟨1000, 10, 100, []⟩ : Datasette) "select * from t" ()
        true none (some 10) true
        (constDriver (DriverOutcome.rows (List.range 12) ["c"]))
      = ExecResult.ok
          ⟨(List.range 12).take (effCap 10 10),
           decide (effCap 10 10 < ((List.range 12).take (effCap 10 10 + 1)).length),
           ["c"]⟩
    ∧ ((List.range 12).take (effCap 10 10 + 1)).length ≤ effCap 10 10 + 1
    ∧ Datasette.execute (⟨1000, 10, 100, []⟩ : Datasette) "select * from t" ()
        false none (some 10) true
        (constDriver (DriverOutcome.rows (List.range 12) ["c"]))
      = ExecResult.ok ⟨List.range 12, false, ["c"]⟩ :=
  execute_truncation_policy (⟨1000, 10, 100, []⟩ : Datasette) "select * from t" ()
    none true 10 (List.range 12) ["c"] (by decide) (by decide)

/-- C1 counterexample: with `max_rows = 10` and `page_size = 10` the
effective cap is 11, so a result set of exactly 11 rows comes back with
`truncated = False` and all 11 rows — not `truncated = True` with 10
rows as claimed. -/
theorem truncation_boundary_counterexample :
    Datasette.execute (⟨1000, 10, 100, []⟩ : Datasette) "select * from t" ()
        true none (some 10) true
        (constDriver (DriverOutcome.rows (List.range 11) ["c"]))
      = ExecResult.ok ⟨List.range 11, false, ["c"]⟩
    ∧ ¬ (Datasette.execute (⟨1000, 10, 100, []⟩ : Datasette) "select * from t" ()
        true none (some 10) true
        (constDriver (DriverOutcome.rows (List.range 11) ["c"]))
      = ExecResult.ok ⟨List.range 10, true, ["c"]⟩) := by
  constructor
  · rfl
  · decide

/-- C1 (amended): with truncate enabled, `max_rows = 10` and
`page_size = 10`, the effective cap is 11: a result set of exactly 11
rows returns `truncated = False` with all 11 rows, and a result set of
exactly 10 rows returns `truncated = False` with exactly 10 rows. -/
theorem truncation_boundary_amended :
    Datasette.execute (⟨1000, 10, 100, []⟩ : Datasette) "select * from t" ()
        true none (some 10) true
        (constDriver (DriverOutcome.rows (List.range 11) ["c"]))
      = ExecResult.ok ⟨List.range 11, false, ["c"]⟩
    ∧ Datasette.execute (⟨1000, 10, 100, []⟩ : Datasette) "select * from t" ()
        true none (some 10) true
        (constDriver (DriverOutcome.rows (List.range 10) ["c"]))
      = ExecResult.ok ⟨List.range 10, false, ["c"]⟩ := ⟨rfl, rfl⟩

/-- A label-column chooser that designates `name` for every table. -/
def exampleLabelColumn : String → Option String := fun _ => some "name"

/-- A label-column chooser that finds no label column for any table. -/
def exampleNoLabelColumn : String → Option String := fun _ => none

/-- C7: when the single batched label query raises `QueryInterrupted`,
the resolver abandons the batch and returns the empty mapping (never a
partial one); every other error raised by the batch query propagates to
the caller. -/
theorem expand_interrupted_returns_empty
    (foreign_keys : List ForeignKey) (label_column : String → Option String)
    (column : String) (values : List Nat) (fk : ForeignKey)
    (rest : List ForeignKey) (lc : String)
    (hfk : foreign_keys.filter (fun f => f.column = column) = fk :: rest)
    (hlc : label_column fk.other_table = some lc) :
    Datasette.expand_foreign_keys foreign_keys label_column column values
        .interrupted = .ok []
    ∧ ∀ args, Datasette.expand_foreign_keys foreign_keys label_column column
        values (.err args) = .error args := by
  constructor
  · simp only [Datasette.expand_foreign_keys, hfk, hlc]
  · intro args
    simp only [Datasette.expand_foreign_keys, hfk, hlc]

theorem expand_interrupted_returns_empty_witness :
    Datasette.expand_foreign_keys [⟨"author_id", "authors", "id"⟩]
        exampleLabelColumn "author_id" [1, 2] .interrupted = .ok []
    ∧ Datasette.expand_foreign_keys [⟨"author_id", "authors", "id"⟩]
        exampleLabelColumn "author_id" [1, 2]
        (.err ["no such table: authors"]) = .error ["no such table: authors"] :=
  ⟨(expand_interrupted_returns_empty [⟨"author_id", "authors", "id"⟩]
      exampleLabelColumn "author_id" [1, 2] ⟨"author_id", "authors", "id"⟩ []
      "name" rfl rfl).1,
   (expand_interrupted_returns_empty [⟨"author_id", "authors", "id"⟩]
      exampleLabelColumn "author_id" [1, 2] ⟨"author_id", "authors", "id"⟩ []
      "name" rfl rfl).2 ["no such table: authors"]⟩

/-- C8: when the named column has no foreign-key relation among the
known foreign keys of the table the result is the empty mapping; when a
foreign key exists but the referenced table has no label column, the
result maps `(column, v)` to `str(v)` exactly for the distinct values
`v` of the input. -/
theorem expand_no_fk_empty_and_identity_labels
    (foreign_keys : List ForeignKey) (label_column : String → Option String)
    (column : String) (values : List Nat) (batch : BatchOutcome) :
    (foreign_keys.filter (fun f => f.column = column) = [] →
      Datasette.expand_foreign_keys foreign_keys label_column column values
        batch = .ok [])
    ∧ (∀ fk rest, foreign_keys.filter (fun f => f.column = column) = fk :: rest →
        label_column fk.other_table = none →
        ∀ m, Datasette.expand_foreign_keys foreign_keys label_column column
          values batch = .ok m →
        ∀ v : Nat, dlookup m (column, v) = some (toString v) ↔ v ∈ values) := by
  constructor
  · intro h
    simp only [Datasette.expand_foreign_keys, h]
  · intro fk rest hfk hlc m hm v
    have hmem : fk ∈ foreign_keys.filter (fun f => f.column = column) := by
      rw [hfk]; exact List.mem_cons_self fk rest
    have hcol : fk.column = column :=
      of_decide_eq_true ((List.mem_filter.mp hmem).2)
    simp only [Datasette.expand_foreign_keys, hfk, hlc] at hm
    have hm' : m = values.foldl
        (fun d v => dinsert d (fk.column, v) (toString v)) [] := by
      injection hm with h'; exact h'.symm
    rw [hm', hcol, dlookup_foldl_identity]
    by_cases hv : v ∈ values
    · simp [hv]
    · simp [hv, dlookup]

theorem expand_no_fk_empty_and_identity_labels_witness :
    Datasette.expand_foreign_keys [] exampleNoLabelColumn "author_id" [3, 5, 3]
        .interrupted = .ok []
    ∧ (dlookup [(("author_id", 3), "3"), (("author_id", 5), "5")]
        ("author_id", 5) = some "5" ↔ 5 ∈ [3, 5, 3]) :=
  ⟨(expand_no_fk_empty_and_identity_labels [] exampleNoLabelColumn "author_id"
      [3, 5, 3] .interrupted).1 rfl,
   (expand_no_fk_empty_and_identity_labels [⟨"author_id", "authors", "id"⟩]
      exampleNoLabelColumn "author_id" [3, 5, 3] .interrupted).2
      ⟨"author_id", "authors", "id"⟩ [] rfl rfl
      [(("author_id", 3), "3"), (("author_id", 5), "5")] rfl 5⟩
